import Mathlib

/-!
A shallow embedding of the bulk participant-removal orchestrator of
src/src/structures/Community.js and of the entity hydration code of the
Message structure (src/unnamed/part_000), with theorems checking the
specification of the repository against the embedded code.

Conventions of the embedding:
* JavaScript numbers that the code treats as integral are modelled as Int;
  the one spot where division-free real arithmetic appears, Math.random(),
  is modelled by a rational parameter r with 0 <= r < 1 and Math.floor by
  Int.floor.
* Remote calls through the bridge (pupPage.evaluate, Store.QueryExist,
  sendRemoveParticipantsRPC, setTimeout) are modelled by an explicit
  environment record plus counters/traces of the calls the code issues.
* JS objects used as string-keyed maps are modelled as association lists
  whose update keeps the first-insertion position and overwrites the value,
  exactly like assignment to an object property.
-/

/-- A platform identifier object as produced by window.Store.WidFactory.createWid,
modelled by its canonical serialized string form: the only part of it the
orchestrator ever reads is the _serialized field. -/
structure Wid where
  serialized : String
deriving DecidableEq

/-- A JavaScript value as stored in the arrays that removeParticipants hands to
Array.prototype.indexOf: either a string primitive or a Wid object. -/
inductive JsVal
  | str (s : String)
  | widv (w : Wid)
deriving DecidableEq

/-- JavaScript strict equality restricted to the comparisons indexOf performs in
removeParticipants: two string primitives compare by value; a string primitive is
never strictly equal to an object, and two Wid objects would compare by object
reference, which is never shared between the freshly created Wid objects of one
call, so every comparison that is not string-to-string is false here. -/
def jsStrictEq : JsVal → JsVal → Bool
  | .str a, .str b => a = b
  | _, _ => false

/-- Array.prototype.indexOf under the strict equality above, returning -1 when the
value does not occur. -/
def jsIndexOf (l : List JsVal) (v : JsVal) : Int :=
  match l.findIdx? (fun x => jsStrictEq x v) with
  | some i => (i : Int)
  | none => -1

/-- The delay specification accepted by the sleep option of removeParticipants
(default [250, 500]): either a single number or an array of numbers. -/
inductive SleepSpec
  | num (n : Int)
  | arr (l : List Int)
deriving DecidableEq

/-- A value the helper _getSleepTime can return: the specification itself
(a number or the array), or NaN, which an empty array produces. -/
inductive SleepVal
  | num (n : Int)
  | arr (l : List Int)
  | nan
deriving DecidableEq

/-- JS truthiness of the sleep option value as tested at line 192 of
Community.js: the number 0 is falsy, every array (being an object) is truthy. -/
def jsTruthySleep : SleepSpec → Bool
  | .num n => n != 0
  | .arr _ => true

/-- The in-place widening of line 151 of Community.js:
sleep[1] - sleep[0] < 100 && (sleep[0] = sleep[1]) && (sleep[1] += 100).
When the width is below 100 the first assignment sets sleep[0] to sleep[1];
the && chain evaluates the assigned value, so when that value is 0 (falsy)
the second assignment never runs and the range stays [high, high]. -/
def widenPair (lo hi : Int) : Int × Int :=
  if hi - lo < 100 then (if hi = 0 then (hi, hi) else (hi, hi + 100)) else (lo, hi)

/-- One invocation of the helper _getSleepTime (Community.js lines 144-153),
returning the computed value together with the delay specification after the
call, because line 151 widens the array in place and the same array is passed
in again on the next invocation. The Math.random() draw is the parameter r.
Source behaviour transcribed case by case:
* not an array, or a two-element array with equal entries: return sleep itself
  (lines 145-147) - for the two-element case this is the array, not the number;
* a one-element array: return sleep[0] (lines 148-150);
* otherwise, when sleep[1] - sleep[0] < 100, line 151 runs
  (sleep[0] = sleep[1]) && (sleep[1] += 100); the second assignment is skipped
  when the freshly assigned sleep[0] is 0, because 0 is falsy and the &&
  chain stops; then line 152 returns
  Math.floor(r * (sleep[1] - sleep[0] + 1)) + sleep[0];
* an empty array reaches line 152 with undefined entries and yields NaN. -/
def _getSleepTime : SleepSpec → ℚ → SleepVal × SleepSpec
  | .num n, _ => (.num n, .num n)
  | .arr [], _ => (.nan, .arr [])
  | .arr [x], _ => (.num x, .arr [x])
  | .arr (lo :: hi :: rest), r =>
    if rest = [] ∧ lo = hi then
      (.arr (lo :: hi :: rest), .arr (lo :: hi :: rest))
    else
      (.num (⌊r * (((widenPair lo hi).2 - (widenPair lo hi).1 + 1 : Int) : ℚ)⌋ +
          (widenPair lo hi).1),
       .arr ((widenPair lo hi).1 :: (widenPair lo hi).2 :: rest))

/-- A normalized per-target result entry, as stored into participantData. -/
structure Outcome where
  code : Int
  message : String
deriving DecidableEq

/-- errorCodes.default of Community.js line 127 (message text verbatim,
including the typo of the source). -/
def errorCodesDefault : String := "An unknown error occupied while removing a participant"

/-- errorCodes.iAmNotAdmin of Community.js line 128. -/
def iAmNotAdminMessage : String :=
  "RemoveParticipantsError: You have no admin rights to remove participants from the community"

/-- The numeric entries of the errorCodes table of Community.js lines 126-135. -/
def errorCodes : Int → Option String
  | 200 => some "The participant was removed successfully from the community and its subgroups"
  | 404 => some "The phone number is not registered on WhatsApp"
  | 405 => some "The participant is not allowed to be removed from the community"
  | 406 => some "The participant can\x27t be removed from the community because they created this community"
  | 409 => some "The participant is not a community member"
  | 500 => some "A server error occupied while removing the participant from community subgroups"
  | _ => none

/-- errorCodes[code] || errorCodes.default, the message lookup used by every
classification branch. -/
def messageFor (c : Int) : String := (errorCodes c).getD errorCodesDefault

/-- One raw response of the removal RPC for one target, as discriminated by the
name checks of Community.js lines 198-220: the three recognized variant names
(a Success response optionally carrying the nested mixin error code of lines
199-202), a rejected call caught at line 185, or a response with any other
name, for which no branch of the chain matches. -/
inductive RpcResponse
  | success (nestedError : Option Int)
  | clientError (code : Int)
  | serverError (code : Int)
  | thrown
  | other (name : String)
deriving DecidableEq

/-- The per-target entry the classification chain of Community.js lines
185-220 produces from one raw response, or none when no branch matches (an
unrecognized response name writes no entry at all). In the Success branch the
source computes +nested?.value.error || 200, so an absent or zero nested code
becomes 200; a rejected call is recorded as code 400 with the default
message. -/
def outcomeOfResponse : RpcResponse → Option Outcome
  | .success ne =>
      let code : Int :=
        match ne with
        | some e => if e = 0 then 200 else e
        | none => 200
      some ⟨code, messageFor code⟩
  | .clientError c => some ⟨c, messageFor c⟩
  | .serverError c => some ⟨c, messageFor c⟩
  | .thrown => some ⟨400, errorCodesDefault⟩
  | .other _ => none

/-- The remote platform environment one removeParticipants call runs against:
the Wid factory, the admin check on the community, the batch-start membership
snapshot (the _serialized ids of groupMetadata.participants._models), the
existence pre-check (whether (await Store.QueryExist(wid))?.wid is truthy),
the responses of the removal RPC (the n-th RPC issued in the call receives
rpcResponse n), and the sleep option value. -/
structure Env where
  createWid : String → Wid
  iAmAdmin : Bool
  communityParticipants : List String
  queryExistWid : Wid → Bool
  rpcResponse : Nat → RpcResponse
  sleepSpec : SleepSpec

/-- Lookup in a JS object used as a map, by key. -/
def mapGet (m : List (String × Outcome)) (k : String) : Option Outcome :=
  match m with
  | [] => none
  | (k1, v) :: rest => if k1 = k then some v else mapGet rest k

/-- Assignment obj[k] = v on a JS object used as a map: overwrites in place
when the key exists, appends otherwise. -/
def mapSet (m : List (String × Outcome)) (k : String) (v : Outcome) : List (String × Outcome) :=
  match m with
  | [] => [(k, v)]
  | (k1, v1) :: rest => if k1 = k then (k1, v) :: rest else (k1, v1) :: mapSet rest k v

/-- The mutable state accumulated across the per-target loop of
removeParticipants: the participantData object, the serialized targets of the
removal RPCs issued so far (in order), and how many times the pacing delay of
the finally block has executed. -/
structure BatchState where
  participantData : List (String × Outcome)
  rpcCalls : List String
  sleepCalls : Nat
deriving DecidableEq

/-- Whether the finally block of Community.js lines 191-196 executes the pacing
delay after this target's RPC attempt: the sleep option is truthy, the batch
has more than one element, and participantIds.indexOf(pWid) differs from
participantIds.length - 1. The indexOf searches the array of id strings for
the Wid object, so it returns -1 for every input (a string is never strictly
equal to an object), which differs from length - 1 whenever the batch is
non-empty. -/
def sleepIncrement (env : Env) (participantIds : List String) (pWid : Wid) : Nat :=
  if jsTruthySleep env.sleepSpec = true ∧ 1 < participantIds.length ∧
      jsIndexOf (participantIds.map JsVal.str) (JsVal.widv pWid) ≠ (participantIds.length : Int) - 1
  then 1 else 0

/-- One iteration of the for-of loop of Community.js lines 155-221 for target
pWid: the existence pre-check writes code 404 and continues (lines 159-165),
the membership pre-check against the batch-start snapshot writes code 409 and
continues (lines 167-173) - neither issues the RPC nor reaches the finally
block - and otherwise the RPC is issued, the finally block decides the pacing
delay, and the response is classified; when the classification produces no
entry (an unrecognized response name) participantData is left untouched for
this target. -/
def processTarget (env : Env) (participantIds : List String) (st : BatchState) (pWid : Wid) :
    BatchState :=
  if env.queryExistWid pWid = false then
    { st with participantData := mapSet st.participantData pWid.serialized ⟨404, messageFor 404⟩ }
  else if env.communityParticipants.all (fun q => q != pWid.serialized) then
    { st with participantData := mapSet st.participantData pWid.serialized ⟨409, messageFor 409⟩ }
  else
    match outcomeOfResponse (env.rpcResponse st.rpcCalls.length) with
    | some o =>
        { st with
            rpcCalls := st.rpcCalls ++ [pWid.serialized],
            sleepCalls := st.sleepCalls + sleepIncrement env participantIds pWid,
            participantData := mapSet st.participantData pWid.serialized o }
    | none =>
        { st with
            rpcCalls := st.rpcCalls ++ [pWid.serialized],
            sleepCalls := st.sleepCalls + sleepIncrement env participantIds pWid }

/-- The value removeParticipants resolves with: the iAmNotAdmin error string of
line 138, or the participantData object. -/
inductive RemoveResult
  | authError (msg : String)
  | batch (m : List (String × Outcome))
deriving DecidableEq

/-- The participantData object of a batch result (empty for the
authorization-error string, which carries no map at all). -/
def RemoveResult.toMap : RemoveResult → List (String × Outcome)
  | .authError _ => []
  | .batch m => m

/-- The observable trace of one removeParticipants call: its returned value,
the removal RPCs issued (serialized target per call, in order), the number of
executed pacing delays, and how many times the batch-start membership snapshot
was fetched (queryAndUpdateCommunityParticipants, line 141). -/
structure RemoveTrace where
  result : RemoveResult
  rpcCalls : List String
  sleepCalls : Nat
  membershipFetches : Nat
deriving DecidableEq

/-- removeParticipants (Community.js lines 115-228) on an already-normalized
list of participant id strings (line 123 wraps a single id into an array): if
the caller is not an admin the error string is returned at once, before the
membership snapshot is fetched and before any per-target work; otherwise the
snapshot is fetched once and each mapped Wid is processed in input order. -/
def removeParticipants (env : Env) (participantIds : List String) : RemoveTrace :=
  if env.iAmAdmin = false then
    { result := .authError iAmNotAdminMessage, rpcCalls := [], sleepCalls := 0,
      membershipFetches := 0 }
  else
    let participantWids := participantIds.map env.createWid
    let final := participantWids.foldl (processTarget env participantIds) ⟨[], [], 0⟩
    { result := .batch final.participantData, rpcCalls := final.rpcCalls,
      sleepCalls := final.sleepCalls, membershipFetches := 1 }

/-- The index of the last occurrence of s in l, if s occurs at all. -/
def lastIdxOf : List String → String → Option Nat
  | [], _ => none
  | a :: as, s =>
    match lastIdxOf as s with
    | some i => some (i + 1)
    | none => if a = s then some 0 else none

/-- One step of the observable hydration order of a _patch call: a field
assignment on this, or the invocation of super._patch. -/
inductive PatchEvent
  | assign (field : String)
  | superPatch
deriving DecidableEq

/-- The only error the hydration code can raise on a malformed snapshot: the
untyped TypeError of reading a property of undefined. No typed
MalformedSnapshot error exists in the source. -/
inductive JsError
  | typeError
deriving DecidableEq

/-- The id object of a message snapshot: the source reads its fromMe flag
(part_000 line 86) and its _serialized form (line 150). -/
structure MsgId where
  fromMe : Bool
  serialized : String
deriving DecidableEq

/-- A JS value that is either a plain string id or a Wid-like object carrying
a _serialized field, as the from, to and author snapshot fields can be
(part_000 lines 53, 62, 68 branch on typeof x === objectkind). -/
inductive StrOrWid
  | str (s : String)
  | wid (w : Wid)
deriving DecidableEq

/-- typeof x === object ? x._serialized : x, for a present value. -/
def StrOrWid.toIdString : StrOrWid → String
  | .str s => s
  | .wid w => w.serialized

/-- The raw message snapshot delivered across the bridge, with every field the
Message patch reads; none models an absent (undefined) field. quotedMsg is
kept only as presence, since line 92 tests its truthiness and nothing else
reads it. -/
structure MsgSnapshot where
  id : Option MsgId
  clientUrl : Option String
  caption : Option String
  body : Option String
  msgType : Option String
  t : Option Int
  msgFrom : Option StrOrWid
  msgTo : Option StrOrWid
  author : Option StrOrWid
  quotedMsg : Option Unit
  isForwarded : Option Bool
  broadcast : Option Bool
  mentionedJidList : Option (List String)
deriving DecidableEq

/-- The fields of a Message object; none models a field still undefined (all
of them, before the first patch). msgType stands for the type field, msgFrom
and msgTo for from and to. -/
structure MsgState where
  id : Option MsgId
  hasMedia : Option Bool
  body : Option String
  msgType : Option String
  timestamp : Option Int
  msgFrom : Option String
  msgTo : Option String
  author : Option String
  isForwarded : Option Bool
  broadcast : Option Bool
  fromMe : Option Bool
  hasQuotedMsg : Option Bool
  mentions : Option (List String)
deriving DecidableEq

/-- JS truthiness of a possibly-absent string: undefined and the empty string
are falsy (part_000 line 29 tests data.clientUrl this way). -/
def jsTruthyStr : Option String → Bool
  | some s => s != ""
  | none => false

/-- JS x || fallback on a possibly-absent string: the fallback is used when x
is undefined or empty (part_000 line 35). -/
def jsOrString (x : Option String) (fallback : String) : String :=
  match x with
  | some s => if s = "" then fallback else s
  | none => fallback

/-- The state of a Message object right after the constructor runs
super(client) and before _patch: every field still undefined. -/
def initialMsgState : MsgState :=
  { id := none, hasMedia := none, body := none, msgType := none, timestamp := none,
    msgFrom := none, msgTo := none, author := none, isForwarded := none, broadcast := none,
    fromMe := none, hasQuotedMsg := none, mentions := none }

/-- Modelled from the spec: the base (Entity) layer patch step that
super._patch of part_000 line 104 invokes; Base.js is not under src. The spec
gives the base layer no Message-visible field of its own beyond the identifier,
which the Message layer assigns itself, so the missing base step is modelled as
the identity on the state; its invocation is recorded by the caller as the
superPatch trace event. -/
def basePatch (st : MsgState) (_data : MsgSnapshot) : MsgState × List PatchEvent :=
  (st, [])

/-- Message._patch (part_000 lines 18-105), transcribed assignment by
assignment in source order, with the trace of assignments and of the final
return super._patch(data). When the snapshot lacks the id field, the read
data.id.fromMe at line 86 throws a TypeError: the ten assignments already made
(lines 23-80) stay, because JS mutates this in place, and the later
assignments and the super call never run. body (line 35) reads the hasMedia
flag assigned the line before; mentions is [] unless mentionedJidList is
present (lines 98-102; an empty present array is truthy and is kept). -/
def Message._patch (st : MsgState) (data : MsgSnapshot) :
    MsgState × Option JsError × List PatchEvent :=
  let hasMedia := jsTruthyStr data.clientUrl
  let st1 : MsgState :=
    { st with
        id := data.id,
        hasMedia := some hasMedia,
        body := some (if hasMedia then jsOrString data.caption "" else jsOrString data.body ""),
        msgType := data.msgType,
        timestamp := data.t,
        msgFrom := data.msgFrom.map StrOrWid.toIdString,
        msgTo := data.msgTo.map StrOrWid.toIdString,
        author := data.author.map StrOrWid.toIdString,
        isForwarded := data.isForwarded,
        broadcast := data.broadcast }
  match data.id with
  | none =>
    (st1, some JsError.typeError,
      [.assign "id", .assign "hasMedia", .assign "body", .assign "type", .assign "timestamp",
       .assign "from", .assign "to", .assign "author", .assign "isForwarded",
       .assign "broadcast"])
  | some mid =>
    let st2 : MsgState :=
      { st1 with
          fromMe := some mid.fromMe,
          hasQuotedMsg := some data.quotedMsg.isSome,
          mentions := some (data.mentionedJidList.getD []) }
    let res := basePatch st2 data
    (res.1, none,
      [.assign "id", .assign "hasMedia", .assign "body", .assign "type", .assign "timestamp",
       .assign "from", .assign "to", .assign "author", .assign "isForwarded",
       .assign "broadcast", .assign "fromMe", .assign "hasQuotedMsg", .assign "mentions",
       .superPatch] ++ res.2)

/-- The raw community snapshot: the groupMetadata field Community._patch
copies, plus an opaque rest standing for everything only the parent layers
read. -/
structure CommunitySnapshot where
  groupMetadata : Option String
  rest : String
deriving DecidableEq

/-- The fields of a Community object: its own two fields plus the parent
(GroupChat/Chat/Base) portion of the state, opaque here. isCommunity is
undefined (none) before the first patch. -/
structure CommunityState (P : Type) where
  groupMetadata : Option String
  isCommunity : Option Bool
  parent : P

/-- Community._patch (Community.js lines 18-23): assigns this.groupMetadata
and this.isCommunity = true, then returns super._patch(data). GroupChat.js and
the layers above it are not under src, so the parent patch step is an abstract
parameter applied to the parent portion of the state and to the same snapshot
object; its invocation is recorded as the superPatch trace event followed by
the parent's own trace. -/
def Community._patch {P : Type}
    (superP : P → CommunitySnapshot → P × List PatchEvent)
    (st : CommunityState P) (data : CommunitySnapshot) :
    CommunityState P × List PatchEvent :=
  let st1 : CommunityState P :=
    { st with groupMetadata := data.groupMetadata, isCommunity := some true }
  let res := superP st1.parent data
  ({ st1 with parent := res.1 },
   [.assign "groupMetadata", .assign "isCommunity", .superPatch] ++ res.2)

/-- A parent patch step that does nothing, used to observe the order of the
Community-level events in isolation. -/
def trivialParentPatch : Unit → CommunitySnapshot → Unit × List PatchEvent :=
  fun _ _ => ((), [])

/-- new Message(client, data): the constructor patches the fresh initial state
with the snapshot (part_000 lines 12-16). -/
def newMessage (data : MsgSnapshot) : MsgState × Option JsError × List PatchEvent :=
  Message._patch initialMsgState data

/-- The bridge environment of getQuotedMessage: what
Store.Msg.get(msgId).quotedMsgObj().serialize() returns for a message id. -/
structure QuotedEnv where
  quotedSnapshot : String → MsgSnapshot

/-- The value getQuotedMessage produces: undefined, a (possibly failed)
freshly hydrated Message, or a throw from reading id._serialized of an
undefined id. -/
inductive QuotedResult
  | absent
  | message (st : MsgState) (err : Option JsError)
  | threw
deriving DecidableEq

/-- getQuotedMessage (part_000 lines 144-153) together with the number of
bridge (pupPage.evaluate) calls it performs: when this.hasQuotedMsg is falsy
it returns undefined with no bridge call; otherwise this.id._serialized is
read (throwing if id is undefined, still before any bridge call), one bridge
call fetches the serialized quoted snapshot, and a fresh Message is
constructed from it. -/
def getQuotedMessage (env : QuotedEnv) (m : MsgState) : QuotedResult × Nat :=
  if m.hasQuotedMsg.getD false = false then (.absent, 0)
  else
    match m.id with
    | none => (.threw, 0)
    | some mid =>
      let r := newMessage (env.quotedSnapshot mid.serialized)
      (.message r.1 r.2.1, 1)

/-- An environment in which the caller is admin, every queried id exists, the
community members are a and b, every removal RPC succeeds with no nested
error, and the sleep option has its default value. -/
def envAllSuccess : Env :=
  { createWid := fun s => ⟨s⟩, iAmAdmin := true, communityParticipants := ["a", "b"],
    queryExistWid := fun _ => true, rpcResponse := fun _ => .success none,
    sleepSpec := .arr [250, 500] }

/-- Like envAllSuccess, but every removal RPC resolves with an unrecognized
response name. -/
def envOtherResp : Env :=
  { createWid := fun s => ⟨s⟩, iAmAdmin := true, communityParticipants := ["a", "b"],
    queryExistWid := fun _ => true, rpcResponse := fun _ => .other "Unexpected",
    sleepSpec := .arr [250, 500] }

/-- Like envAllSuccess, but the first RPC succeeds and every later one
resolves with an unrecognized response name. -/
def envLastOther : Env :=
  { createWid := fun s => ⟨s⟩, iAmAdmin := true, communityParticipants := ["a", "b"],
    queryExistWid := fun _ => true,
    rpcResponse := fun n => if n = 0 then .success none else .other "Unexpected",
    sleepSpec := .arr [250, 500] }

/-- Like envAllSuccess, but the first RPC succeeds and every later one is a
client error with code 404. -/
def envDupResponses : Env :=
  { createWid := fun s => ⟨s⟩, iAmAdmin := true, communityParticipants := ["a", "b"],
    queryExistWid := fun _ => true,
    rpcResponse := fun n => if n = 0 then .success none else .clientError 404,
    sleepSpec := .arr [250, 500] }

/-- An environment in which id a fails the existence pre-check, every other id
exists, and only a is a community member (so b fails the membership
pre-check). -/
def envPrechecks : Env :=
  { createWid := fun s => ⟨s⟩, iAmAdmin := true, communityParticipants := ["a"],
    queryExistWid := fun w => w.serialized != "a", rpcResponse := fun _ => .success none,
    sleepSpec := .arr [250, 500] }

/-- An environment in which the caller is not an admin of the community. -/
def envNotAdmin : Env :=
  { createWid := fun s => ⟨s⟩, iAmAdmin := false, communityParticipants := ["a", "b"],
    queryExistWid := fun _ => true, rpcResponse := fun _ => .success none,
    sleepSpec := .arr [250, 500] }

/-- A snapshot with every optional field present (quotedMsg among them). -/
def fullSnapshot : MsgSnapshot :=
  { id := some ⟨false, "m1"⟩, clientUrl := none, caption := none, body := some "hello",
    msgType := some "chat", t := some 1111, msgFrom := some (.str "u1"),
    msgTo := some (.str "u2"), author := none, quotedMsg := some (),
    isForwarded := some false, broadcast := some false, mentionedJidList := some ["u3"] }

/-- A snapshot carrying only the mandatory id field. -/
def bareSnapshot : MsgSnapshot :=
  { id := some ⟨false, "m1"⟩, clientUrl := none, caption := none, body := none,
    msgType := none, t := none, msgFrom := none, msgTo := none, author := none,
    quotedMsg := none, isForwarded := none, broadcast := none, mentionedJidList := none }

/-- A snapshot lacking the mandatory id field but carrying a body. -/
def noIdSnapshot : MsgSnapshot :=
  { id := none, clientUrl := none, caption := none, body := some "changed",
    msgType := none, t := none, msgFrom := none, msgTo := none, author := none,
    quotedMsg := none, isForwarded := none, broadcast := none, mentionedJidList := none }

/-- A quoted-message bridge that always serves fullSnapshot. -/
def envQuoted : QuotedEnv :=
  { quotedSnapshot := fun _ => fullSnapshot }

/- ————— theorems start below (claims C2 first; the rest follow) ————— -/

theorem mapGet_mapSet (m : List (String × Outcome)) (k : String) (v : Outcome) (s : String) :
    mapGet (mapSet m k v) s = if k = s then some v else mapGet m s := by
  induction m with
  | nil =>
    by_cases h : k = s <;> simp [mapGet, mapSet, h]
  | cons hd tl ih =>
    obtain ⟨k1, v1⟩ := hd
    by_cases h1 : k1 = k
    · subst h1
      by_cases h2 : k1 = s <;> simp [mapGet, mapSet, h2]
    · by_cases h2 : k1 = s
      · subst h2
        have hks : ¬ k = k1 := fun h => h1 h.symm
        simp [mapGet, mapSet, h1, hks]
      · simp [mapGet, mapSet, h1, h2, ih]

theorem floor_sample_bounds (r : ℚ) (hr0 : 0 ≤ r) (hr1 : r < 1) (w : Int) (hw : 0 < w) :
    0 ≤ ⌊r * (w : ℚ)⌋ ∧ ⌊r * (w : ℚ)⌋ ≤ w - 1 := by
  constructor
  · exact Int.floor_nonneg.mpr (mul_nonneg hr0 (by exact_mod_cast hw.le))
  · have hlt : r * (w : ℚ) < ((w : Int) : ℚ) := by
      have : r * (w : ℚ) < 1 * (w : ℚ) :=
        mul_lt_mul_of_pos_right hr1 (by exact_mod_cast hw)
      simpa using this
    have := Int.floor_lt.mpr hlt
    omega

/-- C2 (counterexample): the claim states that a two-element range with
low == high yields that value; on [250, 250] the source helper instead returns
the array itself (line 146 returns sleep, which is the array), not the number
250. -/
theorem c2_counterexample :
    (_getSleepTime (.arr [250, 250]) 0).1 = SleepVal.arr [250, 250] ∧
    (_getSleepTime (.arr [250, 250]) 0).1 ≠ SleepVal.num 250 := by
  constructor
  · rfl
  · decide

/-- C2 (amended claim): given a delay specification and a random draw r with
0 <= r < 1, _getSleepTime returns the specification unchanged when it is a
single number; the specification unchanged (the two-element array itself, not
the unwrapped number) when it is a two-element range with low == high; a
sampled integer guaranteed to lie in [high, high + 100] inclusive when
high - low < 100 (the widening floor; degenerate when high = 0, where the
falsy assigned value stops the widening chain and the result is exactly
high); and a sampled integer in [low, high] inclusive when
high - low >= 100. -/
theorem c2_theorem (lo hi v n : Int) (r : ℚ) (hr0 : 0 ≤ r) (hr1 : r < 1) :
    (_getSleepTime (.num n) r).1 = SleepVal.num n ∧
    (_getSleepTime (.arr [v, v]) r).1 = SleepVal.arr [v, v] ∧
    (hi - lo < 100 → lo ≠ hi →
      ∃ k, (_getSleepTime (.arr [lo, hi]) r).1 = SleepVal.num k ∧ hi ≤ k ∧ k ≤ hi + 100) ∧
    (100 ≤ hi - lo →
      ∃ k, (_getSleepTime (.arr [lo, hi]) r).1 = SleepVal.num k ∧ lo ≤ k ∧ k ≤ hi) := by
  have hs : ∀ (lo1 hi1 : Int), lo1 ≠ hi1 →
      (_getSleepTime (.arr [lo1, hi1]) r).1 =
        SleepVal.num (⌊r * (((widenPair lo1 hi1).2 - (widenPair lo1 hi1).1 + 1 : Int) : ℚ)⌋ +
          (widenPair lo1 hi1).1) := by
    intro lo1 hi1 hne
    simp [_getSleepTime, hne]
  refine ⟨rfl, by simp [_getSleepTime], ?_, ?_⟩
  · intro hw hne
    refine ⟨_, hs lo hi hne, ?_, ?_⟩ <;>
      [skip; skip] <;>
      · have hwp : widenPair lo hi = if hi = 0 then (hi, hi) else (hi, hi + 100) := by
          simp [widenPair, hw]
        by_cases hz : hi = 0
        · rw [hwp, if_pos hz]
          have h := floor_sample_bounds r hr0 hr1 (hi - hi + 1) (by omega)
          push_cast at h ⊢
          omega
        · rw [hwp, if_neg hz]
          have h := floor_sample_bounds r hr0 hr1 (hi + 100 - hi + 1) (by omega)
          push_cast at h ⊢
          omega
  · intro hw
    have hne : lo ≠ hi := by omega
    have hnlt : ¬ (hi - lo < 100) := by omega
    have hwp : widenPair lo hi = (lo, hi) := by simp [widenPair, hnlt]
    refine ⟨_, hs lo hi hne, ?_, ?_⟩ <;>
      · rw [hwp]
        have h := floor_sample_bounds r hr0 hr1 (hi - lo + 1) (by omega)
        push_cast at h ⊢
        omega

theorem c2_witness :
    (∃ k, (_getSleepTime (.arr [250, 300]) (1/2)).1 = SleepVal.num k ∧ 300 ≤ k ∧ k ≤ 400) ∧
    (∃ k, (_getSleepTime (.arr [250, 500]) (1/2)).1 = SleepVal.num k ∧ 250 ≤ k ∧ k ≤ 500) := by
  constructor
  · exact (c2_theorem 250 300 0 0 (1/2) (by norm_num) (by norm_num)).2.2.1 (by decide) (by decide)
  · exact (c2_theorem 250 500 0 0 (1/2) (by norm_num) (by norm_num)).2.2.2 (by decide)

/-- C5 (counterexample): the claim states that the derived patch invokes the
parent's patch before applying any derived-only field assignment; Community._patch
instead assigns groupMetadata and isCommunity first and calls super._patch
last, so the trace of a concrete patch starts with a derived assignment, not
with the super invocation. -/
theorem c5_counterexample :
    (Community._patch trivialParentPatch ⟨none, none, ()⟩ ⟨some "meta", "raw"⟩).2 =
      [PatchEvent.assign "groupMetadata", PatchEvent.assign "isCommunity",
       PatchEvent.superPatch] ∧
    (Community._patch trivialParentPatch ⟨none, none, ()⟩ ⟨some "meta", "raw"⟩).2.head? ≠
      some PatchEvent.superPatch := by
  exact ⟨rfl, by decide⟩

/-- C5 (amended claim): for every entity type in the hierarchy that is under
src, the derived patch applies its derived-only field assignments first and
invokes the parent's patch with the same snapshot last, so base-level fields
are set after the derived assignments: Community's patch performs its two
assignments and then hands the unchanged parent state together with the same
snapshot to the parent patch, and Message's patch performs all its
assignments (starting with id) and then invokes super._patch as the final
step. -/
theorem c5_theorem :
    (∀ (P : Type) (superP : P → CommunitySnapshot → P × List PatchEvent)
        (st : CommunityState P) (data : CommunitySnapshot),
      (Community._patch superP st data).2.take 3 =
        [PatchEvent.assign "groupMetadata", PatchEvent.assign "isCommunity",
         PatchEvent.superPatch] ∧
      (Community._patch superP st data).2.drop 3 = (superP st.parent data).2 ∧
      (Community._patch superP st data).1.parent = (superP st.parent data).1) ∧
    (∀ (st : MsgState) (data : MsgSnapshot) (mid : MsgId), data.id = some mid →
      ∃ pre, (Message._patch st data).2.2 = pre ++ [PatchEvent.superPatch] ∧
        PatchEvent.superPatch ∉ pre ∧ PatchEvent.assign "id" ∈ pre) := by
  constructor
  · intro P superP st data
    exact ⟨rfl, rfl, rfl⟩
  · intro st data mid hid
    refine ⟨[PatchEvent.assign "id", PatchEvent.assign "hasMedia", PatchEvent.assign "body",
      PatchEvent.assign "type", PatchEvent.assign "timestamp", PatchEvent.assign "from",
      PatchEvent.assign "to", PatchEvent.assign "author", PatchEvent.assign "isForwarded",
      PatchEvent.assign "broadcast", PatchEvent.assign "fromMe",
      PatchEvent.assign "hasQuotedMsg", PatchEvent.assign "mentions"], ?_, by decide, by decide⟩
    simp [Message._patch, hid, basePatch]

theorem c5_witness :
    ∃ pre, (Message._patch initialMsgState fullSnapshot).2.2 =
        pre ++ [PatchEvent.superPatch] ∧
      PatchEvent.superPatch ∉ pre ∧ PatchEvent.assign "id" ∈ pre :=
  c5_theorem.2 initialMsgState fullSnapshot ⟨false, "m1"⟩ rfl

/-- C6 (counterexample): the claim states that re-patching leaves fields
absent from the new snapshot unchanged; re-patching a fully hydrated Message
with a snapshot that carries only the id resets hasQuotedMsg from some true to
some false and body from "hello" to "", because every assignment of
Message._patch runs unconditionally. -/
theorem c6_counterexample :
    ((Message._patch initialMsgState fullSnapshot).1.hasQuotedMsg = some true ∧
     (Message._patch initialMsgState fullSnapshot).1.body = some "hello") ∧
    ((Message._patch (Message._patch initialMsgState fullSnapshot).1 bareSnapshot).1.hasQuotedMsg
        = some false ∧
     (Message._patch (Message._patch initialMsgState fullSnapshot).1 bareSnapshot).1.body
        = some "") := by
  exact ⟨⟨rfl, rfl⟩, ⟨rfl, rfl⟩⟩

/-- C6 (amended claim): re-invoking patch overwrites every field
unconditionally: fields present in the snapshot receive the new values and
fields absent from it are reset to their defaults (undefined, false, the empty
string, the empty list), so the patched Message state depends only on the
snapshot and not on previously set fields - for any two prior states the
result of patching with the same id-carrying snapshot is identical - and
Community's own fields are likewise overwritten from the snapshot regardless
of the prior state. -/
theorem c6_theorem (st st2 : MsgState) (data : MsgSnapshot) (mid : MsgId)
    (hid : data.id = some mid) :
    (Message._patch st data).1 = (Message._patch st2 data).1 ∧
    (∀ (P : Type) (superP : P → CommunitySnapshot → P × List PatchEvent)
        (cst : CommunityState P) (cdata : CommunitySnapshot),
      (Community._patch superP cst cdata).1.groupMetadata = cdata.groupMetadata ∧
      (Community._patch superP cst cdata).1.isCommunity = some true) := by
  constructor
  · obtain ⟨did, cu, ca, bo, ty, t, fr, toF, au, qu, fw, br, mj⟩ := data
    simp only [MsgSnapshot.id] at hid
    subst hid
    rfl
  · intro P superP cst cdata
    exact ⟨rfl, rfl⟩

theorem c6_witness :
    (Message._patch (Message._patch initialMsgState fullSnapshot).1 bareSnapshot).1 =
      (Message._patch initialMsgState bareSnapshot).1 :=
  (c6_theorem (Message._patch initialMsgState fullSnapshot).1 initialMsgState bareSnapshot
    ⟨false, "m1"⟩ rfl).1

/-- C7 (counterexample): the claim states that patching with a snapshot
lacking the identifier fails and leaves the entity entirely unpatched; in the
source the failure is the TypeError of data.id.fromMe at line 86, and by then
the first ten assignments have already mutated the entity: patching a
hydrated Message with an id-less snapshot carrying a body fails yet changes
the body field from "hello" to "changed". -/
theorem c7_counterexample :
    (Message._patch (Message._patch initialMsgState fullSnapshot).1 noIdSnapshot).2.1 =
      some JsError.typeError ∧
    (Message._patch (Message._patch initialMsgState fullSnapshot).1 noIdSnapshot).1.body =
      some "changed" ∧
    (Message._patch initialMsgState fullSnapshot).1.body = some "hello" := by
  exact ⟨rfl, rfl, rfl⟩

/-- C7 (amended claim): for every snapshot lacking the mandatory id field,
patching throws the untyped TypeError of reading data.id.fromMe (there is no
typed MalformedSnapshot error in the source), and the entity is left partially
patched: the ten fields assigned before that read (id, hasMedia, body, type,
timestamp, from, to, author, isForwarded, broadcast) are already overwritten
from the snapshot, while fromMe, hasQuotedMsg and mentions keep their previous
values and the super step never runs. -/
theorem c7_theorem (st : MsgState) (data : MsgSnapshot) (hid : data.id = none) :
    (Message._patch st data).2.1 = some JsError.typeError ∧
    (Message._patch st data).1 =
      { st with
          id := none,
          hasMedia := some (jsTruthyStr data.clientUrl),
          body := some (if jsTruthyStr data.clientUrl then jsOrString data.caption ""
            else jsOrString data.body ""),
          msgType := data.msgType,
          timestamp := data.t,
          msgFrom := data.msgFrom.map StrOrWid.toIdString,
          msgTo := data.msgTo.map StrOrWid.toIdString,
          author := data.author.map StrOrWid.toIdString,
          isForwarded := data.isForwarded,
          broadcast := data.broadcast } ∧
    (Message._patch st data).1.fromMe = st.fromMe ∧
    (Message._patch st data).1.hasQuotedMsg = st.hasQuotedMsg ∧
    (Message._patch st data).1.mentions = st.mentions := by
  obtain ⟨did, cu, ca, bo, ty, t, fr, toF, au, qu, fw, br, mj⟩ := data
  simp only [MsgSnapshot.id] at hid
  subst hid
  exact ⟨rfl, rfl, rfl, rfl, rfl⟩

theorem c7_witness :
    (Message._patch initialMsgState noIdSnapshot).2.1 = some JsError.typeError ∧
    (Message._patch initialMsgState noIdSnapshot).1.fromMe = none :=
  ⟨(c7_theorem initialMsgState noIdSnapshot rfl).1,
   (c7_theorem initialMsgState noIdSnapshot rfl).2.2.1⟩

/-- C9 (confirmed): when the hasQuotedMsg flag of a Message is falsy,
getQuotedMessage returns undefined and performs zero bridge calls; when the
flag is set (and the message has an id, as every hydrated message does), it
performs exactly one bridge call fetching the referenced snapshot and returns
a Message freshly constructed from it - the hydration of the pristine initial
state with that snapshot, not a reference to any existing entity. -/
theorem c9_theorem (env : QuotedEnv) (m : MsgState) :
    (m.hasQuotedMsg.getD false = false → getQuotedMessage env m = (.absent, 0)) ∧
    (∀ mid, m.hasQuotedMsg = some true → m.id = some mid →
      getQuotedMessage env m =
        (.message (newMessage (env.quotedSnapshot mid.serialized)).1
            (newMessage (env.quotedSnapshot mid.serialized)).2.1, 1)) := by
  constructor
  · intro h
    simp [getQuotedMessage, h]
  · intro mid h1 h2
    simp [getQuotedMessage, h1, h2]

theorem c9_witness :
    getQuotedMessage envQuoted (Message._patch initialMsgState bareSnapshot).1 =
      (QuotedResult.absent, 0) ∧
    getQuotedMessage envQuoted (Message._patch initialMsgState fullSnapshot).1 =
      (QuotedResult.message (newMessage fullSnapshot).1 (newMessage fullSnapshot).2.1, 1) := by
  constructor
  · exact (c9_theorem envQuoted _).1 rfl
  · exact (c9_theorem envQuoted _).2 ⟨false, "m1"⟩ rfl rfl

theorem mapGet_mapSet_some (m : List (String × Outcome)) (k : String) (v : Outcome)
    (s : String) :
    mapGet (mapSet m k v) s ≠ none ↔ s = k ∨ mapGet m s ≠ none := by
  rw [mapGet_mapSet]
  by_cases h : k = s
  · subst h
    simp
  · have h2 : ¬ s = k := fun hh => h hh.symm
    simp [h, h2]

theorem processTarget_cases (env : Env) (ids : List String) (st : BatchState) (w : Wid) :
    ((processTarget env ids st w).participantData = st.participantData ∨
      ∃ o, (processTarget env ids st w).participantData =
        mapSet st.participantData w.serialized o) ∧
    ((processTarget env ids st w).rpcCalls = st.rpcCalls ∨
      (processTarget env ids st w).rpcCalls = st.rpcCalls ++ [w.serialized]) := by
  unfold processTarget
  by_cases h1 : env.queryExistWid w = false
  · rw [if_pos h1]
    exact ⟨Or.inr ⟨_, rfl⟩, Or.inl rfl⟩
  · rw [if_neg h1]
    by_cases h2 : (env.communityParticipants.all fun q => q != w.serialized) = true
    · rw [if_pos h2]
      exact ⟨Or.inr ⟨_, rfl⟩, Or.inl rfl⟩
    · rw [if_neg h2]
      rcases ho : outcomeOfResponse (env.rpcResponse st.rpcCalls.length) with _ | o
      · exact ⟨Or.inl rfl, Or.inr rfl⟩
      · exact ⟨Or.inr ⟨o, rfl⟩, Or.inr rfl⟩

theorem mapGet_processTarget_ne_none (env : Env) (ids : List String) (st : BatchState)
    (w : Wid) (s : String)
    (hResp : ∀ n, (outcomeOfResponse (env.rpcResponse n)).isSome = true) :
    mapGet (processTarget env ids st w).participantData s ≠ none ↔
      s = w.serialized ∨ mapGet st.participantData s ≠ none := by
  unfold processTarget
  by_cases h1 : env.queryExistWid w = false
  · rw [if_pos h1]
    exact mapGet_mapSet_some _ _ _ _
  · rw [if_neg h1]
    by_cases h2 : (env.communityParticipants.all fun q => q != w.serialized) = true
    · rw [if_pos h2]
      exact mapGet_mapSet_some _ _ _ _
    · rw [if_neg h2]
      obtain ⟨o, ho⟩ := Option.isSome_iff_exists.mp (hResp st.rpcCalls.length)
      rw [ho]
      exact mapGet_mapSet_some _ _ _ _

theorem foldl_keys (env : Env) (ids : List String)
    (hResp : ∀ n, (outcomeOfResponse (env.rpcResponse n)).isSome = true) :
    ∀ (ws : List Wid) (st : BatchState) (s : String),
      mapGet ((ws.foldl (processTarget env ids) st)).participantData s ≠ none ↔
        s ∈ ws.map Wid.serialized ∨ mapGet st.participantData s ≠ none := by
  intro ws
  induction ws with
  | nil =>
    intro st s
    simp
  | cons w ws ih =>
    intro st s
    rw [List.foldl_cons, ih (processTarget env ids st w) s,
      mapGet_processTarget_ne_none env ids st w s hResp, List.map_cons, List.mem_cons]
    tauto

/-- C1 (counterexample): the claim requires one entry per target for every
shape of remote response, including unrecognized variants; a single-target
batch whose RPC resolves with an unrecognized response name produces an empty
participantData object, so the key of the target is missing from the
result. -/
theorem c1_counterexample :
    (removeParticipants envOtherResp ["a"]).result = RemoveResult.batch [] ∧
    mapGet (removeParticipants envOtherResp ["a"]).result.toMap "a" = none := by
  exact ⟨rfl, rfl⟩

/-- C1 (amended claim): for every target list on which the authorization check
succeeds, and whenever every per-target remote response is one of the
recognized shapes (Success with or without nested error, ClientError,
ServerError, or a thrown transport failure), the returned map contains exactly
one entry per target: its key set equals the set of serialized identifiers of
the targets, with no target missing and no extra key; a response with any
other variant name matches no branch of the classifier and leaves no entry for
its target. -/
theorem c1_theorem (env : Env) (ids : List String)
    (hAdmin : env.iAmAdmin = true)
    (hResp : ∀ n, (outcomeOfResponse (env.rpcResponse n)).isSome = true) :
    ∀ s, mapGet (removeParticipants env ids).result.toMap s ≠ none ↔
      s ∈ ids.map (fun p => (env.createWid p).serialized) := by
  intro s
  unfold removeParticipants
  rw [if_neg (by simp [hAdmin])]
  show mapGet ((ids.map env.createWid).foldl (processTarget env ids)
      ⟨[], [], 0⟩).participantData s ≠ none ↔ _
  rw [foldl_keys env ids hResp]
  simp [mapGet, List.map_map, Function.comp]

theorem c1_witness :
    mapGet (removeParticipants envAllSuccess ["a", "b"]).result.toMap "a" ≠ none ∧
    mapGet (removeParticipants envAllSuccess ["a", "b"]).result.toMap "z" = none := by
  constructor
  · exact (c1_theorem envAllSuccess ["a", "b"] rfl (fun n => rfl) "a").mpr (by decide)
  · by_contra hz
    exact absurd ((c1_theorem envAllSuccess ["a", "b"] rfl (fun n => rfl) "z").mp hz)
      (by decide)

/-- C3 (code bug): the claim - and the sleep option's own documentation, which
describes the delay as the wait before removing the next participant - say the
delay never runs after the last target's mutation attempt, at most N - 1 times
for N targets; but the guard at line 194 computes
participantIds.indexOf(pWid), searching the array of id strings for the Wid
object, which is never strictly equal to a string, so the guard compares -1
with length - 1 and never fires: a two-target batch in which both targets
reach the RPC executes the delay twice, once after each attempt, including the
last. A single-target batch still executes it zero times (the length > 1 guard
works). -/
theorem c3_theorem :
    (removeParticipants envAllSuccess ["a"]).sleepCalls = 0 ∧
    (removeParticipants envAllSuccess ["a", "b"]).sleepCalls = 2 := by
  exact ⟨rfl, rfl⟩

theorem shortCircuit404 (env : Env) (ids : List String) (s : String)
    (hq : env.queryExistWid ⟨s⟩ = false) (st : BatchState) :
    processTarget env ids st ⟨s⟩ =
      { st with participantData := mapSet st.participantData s ⟨404, messageFor 404⟩ } := by
  unfold processTarget
  rw [if_pos hq]

theorem shortCircuit409 (env : Env) (ids : List String) (s : String)
    (hq : env.queryExistWid ⟨s⟩ = true) (hm : s ∉ env.communityParticipants)
    (st : BatchState) :
    processTarget env ids st ⟨s⟩ =
      { st with participantData := mapSet st.participantData s ⟨409, messageFor 409⟩ } := by
  unfold processTarget
  have hall : (env.communityParticipants.all fun q => q != (⟨s⟩ : Wid).serialized) = true := by
    rw [List.all_eq_true]
    intro q hqm
    simp only [bne_iff_ne, ne_eq]
    intro hqs
    exact hm (hqs ▸ hqm)
  rw [if_neg (by simp [hq]), if_pos hall]

theorem foldl_shortCircuit (env : Env) (ids : List String) (s : String) (o0 : Outcome)
    (hsc : ∀ st : BatchState, processTarget env ids st ⟨s⟩ =
      { st with participantData := mapSet st.participantData s o0 }) :
    ∀ (ws : List Wid) (st : BatchState),
      (∀ o, mapGet st.participantData s = some o → o = o0) → s ∉ st.rpcCalls →
      ((∀ o, mapGet (ws.foldl (processTarget env ids) st).participantData s = some o →
          o = o0) ∧
        s ∉ (ws.foldl (processTarget env ids) st).rpcCalls ∧
        ((s ∈ ws.map Wid.serialized ∨ (mapGet st.participantData s).isSome = true) →
          (mapGet (ws.foldl (processTarget env ids) st).participantData s).isSome = true)) := by
  intro ws
  induction ws with
  | nil =>
    intro st hP hR
    refine ⟨hP, hR, ?_⟩
    rintro (h | h)
    · simp at h
    · exact h
  | cons w ws ih =>
    intro st hP hR
    by_cases hw : w.serialized = s
    · have hwid : w = (⟨s⟩ : Wid) := by
        cases w
        simpa using hw
      rw [List.foldl_cons, hwid, hsc st]
      have hP2 : ∀ o,
          mapGet (mapSet st.participantData s o0) s = some o → o = o0 := by
        intro o h
        rw [mapGet_mapSet, if_pos rfl] at h
        exact (Option.some_inj.mp h).symm
      obtain ⟨a, b, c⟩ :=
        ih { st with participantData := mapSet st.participantData s o0 } hP2 hR
      refine ⟨a, b, ?_⟩
      intro _
      apply c
      right
      show (mapGet (mapSet st.participantData s o0) s).isSome = true
      rw [mapGet_mapSet, if_pos rfl]
      rfl
    · rw [List.foldl_cons]
      obtain ⟨hpd, hrc⟩ := processTarget_cases env ids st w
      have hP2 : ∀ o,
          mapGet (processTarget env ids st w).participantData s = some o → o = o0 := by
        rcases hpd with h | ⟨o1, h⟩
        · rw [h]; exact hP
        · rw [h, mapGet_mapSet, if_neg hw]; exact hP
      have hR2 : s ∉ (processTarget env ids st w).rpcCalls := by
        rcases hrc with h | h
        · rw [h]; exact hR
        · rw [h]
          intro hmem
          rcases List.mem_append.mp hmem with h3 | h3
          · exact hR h3
          · simp only [List.mem_singleton] at h3
            exact hw h3.symm
      have hsomeP : (mapGet st.participantData s).isSome = true →
          (mapGet (processTarget env ids st w).participantData s).isSome = true := by
        rcases hpd with h | ⟨o1, h⟩
        · rw [h]; exact id
        · rw [h, mapGet_mapSet, if_neg hw]; exact id
      obtain ⟨a, b, c⟩ := ih (processTarget env ids st w) hP2 hR2
      refine ⟨a, b, ?_⟩
      rintro (hmem | hsome)
      · rw [List.map_cons, List.mem_cons] at hmem
        rcases hmem with h | h
        · exact absurd h.symm hw
        · exact c (Or.inl h)
      · exact c (Or.inr (hsomeP hsome))

/-- C4 (confirmed): for every target of an authorized batch, if the existence
pre-check fails for its Wid the final entry for its serialized id is code 404,
and if the pre-check passes but the serialized id is absent from the
batch-start membership snapshot the final entry is code 409 (the pre-checks
are evaluated in that order); in both cases the removal RPC is never issued
for that serialized id anywhere in the batch. -/
theorem c4_theorem (env : Env) (ids : List String) (p : String)
    (hAdmin : env.iAmAdmin = true) (hp : p ∈ ids) :
    (env.queryExistWid (env.createWid p) = false →
      mapGet (removeParticipants env ids).result.toMap (env.createWid p).serialized =
          some ⟨404, messageFor 404⟩ ∧
        (env.createWid p).serialized ∉ (removeParticipants env ids).rpcCalls) ∧
    (env.queryExistWid (env.createWid p) = true →
      (env.createWid p).serialized ∉ env.communityParticipants →
      mapGet (removeParticipants env ids).result.toMap (env.createWid p).serialized =
          some ⟨409, messageFor 409⟩ ∧
        (env.createWid p).serialized ∉ (removeParticipants env ids).rpcCalls) := by
  have main : ∀ o0 : Outcome,
      (∀ st : BatchState, processTarget env ids st ⟨(env.createWid p).serialized⟩ =
        { st with participantData :=
            mapSet st.participantData (env.createWid p).serialized o0 }) →
      mapGet (removeParticipants env ids).result.toMap (env.createWid p).serialized =
          some o0 ∧
        (env.createWid p).serialized ∉ (removeParticipants env ids).rpcCalls := by
    intro o0 hsc
    unfold removeParticipants
    rw [if_neg (by simp [hAdmin])]
    have hmem : (env.createWid p).serialized ∈ (ids.map env.createWid).map Wid.serialized := by
      rw [List.map_map]
      exact List.mem_map.mpr ⟨p, hp, rfl⟩
    obtain ⟨a, b, c⟩ := foldl_shortCircuit env ids (env.createWid p).serialized o0 hsc
      (ids.map env.createWid) ⟨[], [], 0⟩ (by intro o h; simp [mapGet] at h) (by simp)
    obtain ⟨o, ho⟩ := Option.isSome_iff_exists.mp (c (Or.inl hmem))
    have hoo := a o ho
    subst hoo
    exact ⟨ho, b⟩
  constructor
  · intro h404
    exact main ⟨404, messageFor 404⟩ (fun st => shortCircuit404 env ids _ h404 st)
  · intro hex hmem
    exact main ⟨409, messageFor 409⟩ (fun st => shortCircuit409 env ids _ hex hmem st)

theorem c4_witness :
    (mapGet (removeParticipants envPrechecks ["a", "b"]).result.toMap "a" =
        some ⟨404, messageFor 404⟩ ∧
      "a" ∉ (removeParticipants envPrechecks ["a", "b"]).rpcCalls) ∧
    (mapGet (removeParticipants envPrechecks ["a", "b"]).result.toMap "b" =
        some ⟨409, messageFor 409⟩ ∧
      "b" ∉ (removeParticipants envPrechecks ["a", "b"]).rpcCalls) := by
  constructor
  · exact (c4_theorem envPrechecks ["a", "b"] "a" rfl (by decide)).1 rfl
  · exact (c4_theorem envPrechecks ["a", "b"] "b" rfl (by decide)).2 rfl (by decide)

/-- C8 (confirmed): when the caller lacks admin rights the call returns the
authorization error string immediately - a value distinct from any batch
result map - with the membership snapshot never fetched, zero removal RPCs
issued, zero pacing delays executed, and no partial per-target map
produced. -/
theorem c8_theorem (env : Env) (ids : List String) (hAdmin : env.iAmAdmin = false) :
    (removeParticipants env ids).result = RemoveResult.authError iAmNotAdminMessage ∧
    (removeParticipants env ids).rpcCalls = [] ∧
    (removeParticipants env ids).sleepCalls = 0 ∧
    (removeParticipants env ids).membershipFetches = 0 := by
  unfold removeParticipants
  rw [if_pos hAdmin]
  exact ⟨rfl, rfl, rfl, rfl⟩

theorem c8_witness :
    (removeParticipants envNotAdmin ["a", "b"]).result =
      RemoveResult.authError iAmNotAdminMessage ∧
    (removeParticipants envNotAdmin ["a", "b"]).rpcCalls = [] ∧
    (removeParticipants envNotAdmin ["a", "b"]).sleepCalls = 0 ∧
    (removeParticipants envNotAdmin ["a", "b"]).membershipFetches = 0 :=
  c8_theorem envNotAdmin ["a", "b"] rfl

theorem processTarget_pass (env : Env) (ids : List String) (st : BatchState) (w : Wid)
    (hq : env.queryExistWid w = true) (hm : w.serialized ∈ env.communityParticipants)
    (o : Outcome) (ho : outcomeOfResponse (env.rpcResponse st.rpcCalls.length) = some o) :
    processTarget env ids st w =
      { st with
          rpcCalls := st.rpcCalls ++ [w.serialized],
          sleepCalls := st.sleepCalls + sleepIncrement env ids w,
          participantData := mapSet st.participantData w.serialized o } := by
  unfold processTarget
  have h2 : ¬ (env.communityParticipants.all fun q => q != w.serialized) = true := by
    intro hall
    have := List.all_eq_true.mp hall w.serialized hm
    simp at this
  rw [if_neg (by simp [hq]), if_neg h2, ho]

theorem foldl_allPass (env : Env) (ids : List String)
    (hResp : ∀ n, (outcomeOfResponse (env.rpcResponse n)).isSome = true) :
    ∀ (ws : List Wid) (st : BatchState),
      (∀ w ∈ ws, env.queryExistWid w = true ∧ w.serialized ∈ env.communityParticipants) →
      (ws.foldl (processTarget env ids) st).rpcCalls =
          st.rpcCalls ++ ws.map Wid.serialized ∧
        ∀ s, mapGet (ws.foldl (processTarget env ids) st).participantData s =
          (match lastIdxOf (ws.map Wid.serialized) s with
           | some i => outcomeOfResponse (env.rpcResponse (st.rpcCalls.length + i))
           | none => mapGet st.participantData s) := by
  intro ws
  induction ws with
  | nil =>
    intro st _
    refine ⟨by simp, ?_⟩
    intro s
    simp [lastIdxOf]
  | cons w ws ih =>
    intro st hpass
    obtain ⟨hqw, hmw⟩ := hpass w (List.mem_cons_self w ws)
    obtain ⟨o, ho⟩ := Option.isSome_iff_exists.mp (hResp st.rpcCalls.length)
    rw [List.foldl_cons, processTarget_pass env ids st w hqw hmw o ho]
    obtain ⟨ha, hb⟩ := ih
      { st with
          rpcCalls := st.rpcCalls ++ [w.serialized],
          sleepCalls := st.sleepCalls + sleepIncrement env ids w,
          participantData := mapSet st.participantData w.serialized o }
      (fun x hx => hpass x (List.mem_cons_of_mem w hx))
    constructor
    · rw [ha]
      simp
    · intro s
      rw [hb s]
      simp only [List.map_cons]
      cases hlast : lastIdxOf (ws.map Wid.serialized) s with
      | some i =>
        simp only [lastIdxOf, hlast, List.length_append, List.length_singleton]
        rw [show st.rpcCalls.length + 1 + i = st.rpcCalls.length + (i + 1) from by omega]
      | none =>
        simp only [lastIdxOf, hlast]
        by_cases hws : w.serialized = s
        · rw [if_pos hws]
          show mapGet (mapSet st.participantData w.serialized o) s =
            outcomeOfResponse (env.rpcResponse (st.rpcCalls.length + 0))
          rw [mapGet_mapSet, if_pos hws, Nat.add_zero]
          exact ho.symm
        · rw [if_neg hws]
          show mapGet (mapSet st.participantData w.serialized o) s =
            mapGet st.participantData s
          rw [mapGet_mapSet, if_neg hws]

/-- C10 (counterexample): the claim states the entry of a duplicated
identifier holds the outcome of the last occurrence processed; with two
occurrences of one id, the first RPC succeeding and the second resolving with
an unrecognized response name, both occurrences issue an RPC but the last
occurrence produces no outcome at all, and the entry keeps the first
occurrence's code 200 result. -/
theorem c10_counterexample :
    (removeParticipants envLastOther ["a", "a"]).rpcCalls = ["a", "a"] ∧
    mapGet (removeParticipants envLastOther ["a", "a"]).result.toMap "a" =
      some ⟨200, messageFor 200⟩ ∧
    outcomeOfResponse (envLastOther.rpcResponse 1) = none := by
  exact ⟨rfl, rfl, rfl⟩

/-- C10 (amended claim): in an authorized batch in which every occurrence
passes both pre-checks and every remote response has a recognized shape, each
occurrence of a duplicated identifier issues its own removal RPC, in input
order, and the returned map contains exactly one entry per distinct serialized
identifier, holding the outcome of the last occurrence; an occurrence whose
response has an unrecognized variant name produces no outcome and leaves the
earlier entry in place. -/
theorem c10_theorem (env : Env) (ids : List String)
    (hAdmin : env.iAmAdmin = true)
    (hResp : ∀ n, (outcomeOfResponse (env.rpcResponse n)).isSome = true)
    (hPass : ∀ p ∈ ids, env.queryExistWid (env.createWid p) = true ∧
      (env.createWid p).serialized ∈ env.communityParticipants) :
    (removeParticipants env ids).rpcCalls =
      ids.map (fun p => (env.createWid p).serialized) ∧
    ∀ s, mapGet (removeParticipants env ids).result.toMap s =
      (match lastIdxOf (ids.map fun p => (env.createWid p).serialized) s with
       | some i => outcomeOfResponse (env.rpcResponse i)
       | none => none) := by
  unfold removeParticipants
  rw [if_neg (by simp [hAdmin])]
  have hws : ∀ w ∈ ids.map env.createWid,
      env.queryExistWid w = true ∧ w.serialized ∈ env.communityParticipants := by
    intro w hw
    obtain ⟨p, hp, rfl⟩ := List.mem_map.mp hw
    exact hPass p hp
  obtain ⟨ha, hb⟩ := foldl_allPass env ids hResp (ids.map env.createWid) ⟨[], [], 0⟩ hws
  have hmm : (ids.map env.createWid).map Wid.serialized =
      ids.map (fun p => (env.createWid p).serialized) := by
    rw [List.map_map]
    rfl
  constructor
  · show ((ids.map env.createWid).foldl (processTarget env ids) ⟨[], [], 0⟩).rpcCalls = _
    rw [ha, hmm]
    rfl
  · intro s
    show mapGet ((ids.map env.createWid).foldl (processTarget env ids)
        ⟨[], [], 0⟩).participantData s = _
    rw [hb s, hmm]
    cases lastIdxOf (ids.map fun p => (env.createWid p).serialized) s with
    | some i => simp
    | none => rfl

theorem c10_witness :
    (removeParticipants envDupResponses ["a", "a"]).rpcCalls = ["a", "a"] ∧
    mapGet (removeParticipants envDupResponses ["a", "a"]).result.toMap "a" =
      some ⟨404, messageFor 404⟩ := by
  have h := c10_theorem envDupResponses ["a", "a"] rfl (fun n => by cases n <;> rfl)
    (by decide)
  exact ⟨h.1, (h.2 "a").trans (by rfl)⟩
